import Mathlib

/-!
Verification of the trzsz-go transfer utility against its specification.

The Go sources are shallowly embedded: byte strings become `List Nat`
(each element below 256), fallible operations return `Except String`,
and operating-system effects (stat, readdir, symlink resolution, tmux
probing, clocks) are passed in explicitly as environment records.
-/
set_option maxHeartbeats 1000000

/-! ## Frame codec: base64 over zlib

`encodeBytes` / `decodeString` in the source zlib-compress and
base64-encode (and invert).  The compression and base64 libraries are
Go standard library code, external to this repository, so they are
modelled from their documented formats below.
-/
/-- Modelled from the spec: Go `encoding/base64` StdEncoding alphabet
(RFC 4648 standard), external library code not part of this repository. -/
def encChar (n : Nat) : Char :=
  if n < 26 then Char.ofNat (65 + n)
  else if n < 52 then Char.ofNat (97 + (n - 26))
  else if n < 62 then Char.ofNat (48 + (n - 52))
  else if n = 62 then '+'
  else '/'

/-- Modelled from the spec: inverse character table of the RFC 4648
standard base64 alphabet, as used by Go `encoding/base64` decoding. -/
def decChar (c : Char) : Option Nat :=
  let v := c.toNat
  if 65 ≤ v ∧ v ≤ 90 then some (v - 65)
  else if 97 ≤ v ∧ v ≤ 122 then some (v - 97 + 26)
  else if 48 ≤ v ∧ v ≤ 57 then some (v - 48 + 52)
  else if v = 43 then some 62
  else if v = 47 then some 63
  else none

/-- Modelled from the spec: Go `base64.StdEncoding.EncodeToString`,
grouping bytes in threes with `=` padding. -/
def b64encode : List Nat → List Char
  | [] => []
  | [a] => [encChar (a / 4), encChar (a % 4 * 16), '=', '=']
  | [a, b] => [encChar (a / 4), encChar (a % 4 * 16 + b / 16), encChar (b % 16 * 4), '=']
  | a :: b :: c :: rest =>
    encChar (a / 4) :: encChar (a % 4 * 16 + b / 16) :: encChar (b % 16 * 4 + c / 64)
      :: encChar (c % 64) :: b64encode rest

/-- Modelled from the spec: Go `base64.StdEncoding.DecodeString`,
consuming four characters per group with terminal `=` padding only. -/
def b64decode : List Char → Except String (List Nat)
  | [] => .ok []
  | c0 :: c1 :: c2 :: c3 :: rest =>
    match decChar c0, decChar c1 with
    | some v0, some v1 =>
      if c2 = '=' then
        if c3 = '=' ∧ rest = [] then .ok [v0 * 4 + v1 / 16]
        else .error "illegal base64 data"
      else
        match decChar c2 with
        | some v2 =>
          if c3 = '=' then
            if rest = [] then .ok [v0 * 4 + v1 / 16, v1 % 16 * 16 + v2 / 4]
            else .error "illegal base64 data"
          else
            match decChar c3 with
            | some v3 =>
              match b64decode rest with
              | .ok tail =>
                .ok ((v0 * 4 + v1 / 16) :: (v1 % 16 * 16 + v2 / 4) :: (v2 % 4 * 64 + v3) :: tail)
              | .error e => .error e
            | none => .error "illegal base64 data"
        | none => .error "illegal base64 data"
    | _, _ => .error "illegal base64 data"
  | _ => .error "illegal base64 data"

/-- Modelled from the spec: header of an RFC 1951 stored (uncompressed)
DEFLATE block: LEN little-endian, then NLEN, its one's complement. -/
def storedHeader (n : Nat) : List Nat :=
  [n % 256, n / 256, (65535 - n) % 256, (65535 - n) / 256]

/-- Modelled from the spec: the DEFLATE payload written by Go
`compress/zlib` (external library code), modelled as a sequence of
stored blocks of at most 65535 bytes, the last one marked final. -/
def deflateStored (l : List Nat) : List Nat :=
  if l.length ≤ 65535 then 1 :: (storedHeader l.length ++ l)
  else 0 :: (storedHeader 65535 ++ (l.take 65535 ++ deflateStored (l.drop 65535)))
termination_by l.length
decreasing_by simp [List.length_drop]; omega

/-- Modelled from the spec: the Adler-32 checksum that terminates an
RFC 1950 zlib stream. -/
def adler32 (l : List Nat) : Nat :=
  let p := l.foldl (fun ab x => ((ab.1 + x) % 65521, (ab.2 + (ab.1 + x) % 65521) % 65521))
    (1, 0)
  p.2 * 65536 + p.1

/-- Big-endian byte serialization of the Adler-32 checksum. -/
def adlerBytes (l : List Nat) : List Nat :=
  [adler32 l / 16777216 % 256, adler32 l / 65536 % 256, adler32 l / 256 % 256, adler32 l % 256]

/-- Modelled from the spec: Go `zlib.NewWriter` output (external library
code): the 2-byte RFC 1950 header, the DEFLATE payload, the checksum. -/
def zlibCompress (l : List Nat) : List Nat :=
  120 :: 1 :: (deflateStored l ++ adlerBytes l)

/-- Modelled from the spec: the inflate side of Go `compress/zlib`
(external library code) restricted to stored blocks; returns the
decompressed data and the bytes following the final block. -/
def inflateStored (l : List Nat) : Except String (List Nat × List Nat) :=
  match l with
  | bf :: l0 :: l1 :: n0 :: n1 :: rest =>
    if l0 + 256 * l1 + (n0 + 256 * n1) ≠ 65535 then .error "zlib: invalid stored block"
    else if rest.length < l0 + 256 * l1 then .error "zlib: unexpected EOF"
    else if bf = 1 then .ok (rest.take (l0 + 256 * l1), rest.drop (l0 + 256 * l1))
    else if bf = 0 then
      match inflateStored (rest.drop (l0 + 256 * l1)) with
      | .ok (dat, rem) => .ok (rest.take (l0 + 256 * l1) ++ dat, rem)
      | .error e => .error e
    else .error "zlib: unsupported block type"
  | _ => .error "zlib: unexpected EOF"
termination_by l.length
decreasing_by simp [List.length_drop]; omega

/-- Modelled from the spec: Go `zlib.NewReader` plus `io.Copy` as used
by `decodeString`: check the RFC 1950 header, inflate, verify Adler-32. -/
def zlibDecompress (l : List Nat) : Except String (List Nat) :=
  match l with
  | cmf :: flg :: rest =>
    if cmf % 16 ≠ 8 then .error "zlib: invalid header"
    else if 7 < cmf / 16 then .error "zlib: invalid header"
    else if (cmf * 256 + flg) % 31 ≠ 0 then .error "zlib: invalid header"
    else if flg / 32 % 2 = 1 then .error "zlib: dictionary not supported"
    else
      match inflateStored rest with
      | .ok (dat, rem) =>
        if 4 ≤ rem.length ∧ rem.take 4 = adlerBytes dat then .ok dat
        else .error "zlib: invalid checksum"
      | .error e => .error e
  | _ => .error "zlib: unexpected EOF"

/-! ## The frame codec of the source: `encodeBytes` / `decodeString` -/
/-- `encodeBytes` from the source: zlib-compress, then base64-encode. -/
def encodeBytes (buf : List Nat) : String :=
  String.mk (b64encode (zlibCompress buf))

/-- `encodeString` from the source: encode the UTF-8 bytes of a string
(restricted in this model to code points, faithful for ASCII). -/
def encodeString (str : String) : String :=
  encodeBytes (str.data.map Char.toNat)

/-- `decodeString` from the source: base64-decode, then zlib-decompress. -/
def decodeString (str : String) : Except String (List Nat) :=
  match b64decode str.data with
  | .ok b => zlibDecompress b
  | .error e => .error e

/-! ## TrzszError

`NewTrzszError` decodes peer messages for wire error types and appends
a local stack trace exactly when `isTraceBack` holds.  The runtime
stack (`debug.Stack()`) is an ambient value, passed in explicitly.
-/
/-- Byte list to string, mirroring Go `string(msg)` (faithful for the
single-byte code points produced by `decodeString`). -/
def bytesToString (l : List Nat) : String :=
  String.mk (l.map Char.ofNat)

/-- `TrzszError` from the source. -/
structure TrzszError where
  message : String
  errType : String
  trace : Bool

/-- `TrzszError.isTraceBack` from the source. -/
def TrzszError.isTraceBack (e : TrzszError) : Bool :=
  if e.errType = "fail" ∨ e.errType = "EXIT" then false else e.trace

/-- `TrzszError.isRemoteExit` from the source. -/
def TrzszError.isRemoteExit (e : TrzszError) : Bool :=
  e.errType = "EXIT"

/-- `TrzszError.isRemoteFail` from the source. -/
def TrzszError.isRemoteFail (e : TrzszError) : Bool :=
  e.errType = "fail" ∨ e.errType = "FAIL"

/-- `NewTrzszError` from the source, with the runtime stack passed in. -/
def NewTrzszError (message errType : String) (trace : Bool) (stack : String) : TrzszError :=
  let message :=
    if errType = "fail" ∨ errType = "FAIL" ∨ errType = "EXIT" then
      match decodeString message with
      | .error err => "decode [" ++ message ++ "] error: " ++ err
      | .ok msg => bytesToString msg
    else if 0 < errType.length then "[TrzszError] " ++ errType ++ ": " ++ message
    else message
  let e : TrzszError := ⟨message, errType, trace⟩
  if e.isTraceBack then { e with message := e.message ++ "\n" ++ stack } else e

/-- The message before any stack trace is appended: the decode of the
wire message for the wire error types, otherwise the tagged message. -/
def trzszBaseMessage (message errType : String) : String :=
  if errType = "fail" ∨ errType = "FAIL" ∨ errType = "EXIT" then
    match decodeString message with
    | .error err => "decode [" ++ message ++ "] error: " ++ err
    | .ok msg => bytesToString msg
  else if 0 < errType.length then "[TrzszError] " ++ errType ++ ": " ++ message
  else message

/-! ## BufferSize.UnmarshalText

Go's `int64` multiplication wraps, so the suffix multiplications are
modelled with explicit two's-complement wraparound.
-/
/-- Two's-complement wraparound of a mathematical integer into the
`int64` range, as Go arithmetic performs it. -/
def wrap64 (x : Int) : Int :=
  (x + 2 ^ 63) % 2 ^ 64 - 2 ^ 63

/-- Value of a nonempty ASCII digit string, as `strconv.ParseInt`
computes it before its range check. -/
def digitsVal (cs : List Char) : Nat :=
  cs.foldl (fun acc c => acc * 10 + (c.toNat - 48)) 0

/-- Modelled from the spec: the per-character lowercasing that Go
regexp `(?i)` matching and `strings.ToLower` agree on over the
characters the size regexp can accept.  Unicode simple case folding
puts the Kelvin sign U+212A in the fold orbit of `k` (the orbits of
`b`, `m` and `g` are just their case pairs), and Unicode lowercasing
sends exactly K, k and U+212A to `k`, so for these letters the folded
match and the lowercased comparison coincide. -/
def goSimpleLower (c : Char) : Char :=
  if c = Char.ofNat 8490 then 'k' else c.toLower

/-- The submatch of `sizeRegexp` = `(?i)^(\d+)(b|k|m|g|kb|mb|gb)?$`:
the digit group and the lowercased suffix group, or `none` when the
string does not match.  Each suffix letter is matched case-insensitively
under Unicode simple folding — in particular the Kelvin sign U+212A
matches `k` — which for these letters is equivalent to comparing the
`goSimpleLower`-image against the lowercase alternatives. -/
def sizeRegexMatch (s : String) : Option (List Char × List Char) :=
  let digits := s.data.takeWhile Char.isDigit
  let rest := s.data.dropWhile Char.isDigit
  if digits = [] then none
  else
    let low := rest.map goSimpleLower
    if low = [] ∨ low = ['b'] ∨ low = ['k'] ∨ low = ['m'] ∨ low = ['g']
        ∨ low = ['k', 'b'] ∨ low = ['m', 'b'] ∨ low = ['g', 'b'] then
      some (digits, low)
    else none

/-- `BufferSize.UnmarshalText` from the source: regex match, ParseInt,
suffix multiplication (wrapping like Go `int64`), then range checks. -/
def unmarshalText (s : String) : Except String Int :=
  match sizeRegexMatch s with
  | none => .error ("invalid size " ++ s)
  | some (digits, low) =>
    if 9223372036854775807 < digitsVal digits then .error ("invalid size " ++ s)
    else
      match (if low = [] ∨ low = ['b'] then some ((digitsVal digits : Int))
             else if low = ['k'] ∨ low = ['k', 'b'] then
               some (wrap64 ((digitsVal digits : Int) * 1024))
             else if low = ['m'] ∨ low = ['m', 'b'] then
               some (wrap64 ((digitsVal digits : Int) * (1024 * 1024)))
             else if low = ['g'] ∨ low = ['g', 'b'] then
               some (wrap64 ((digitsVal digits : Int) * (1024 * 1024 * 1024)))
             else none) with
      | none => .error ("invalid size " ++ s)
      | some sizeValue =>
        if sizeValue < 1024 then .error "less than 1K"
        else if 1024 * 1024 * 1024 < sizeValue then .error "greater than 1G"
        else .ok sizeValue

/-- Multiplier of each size suffix per the specification. -/
def suffixMultiplier (l : List Char) : Option Int :=
  if l = [] ∨ l = ['b'] then some 1
  else if l = ['k'] ∨ l = ['k', 'b'] then some 1024
  else if l = ['m'] ∨ l = ['m', 'b'] then some (1024 * 1024)
  else if l = ['g'] ∨ l = ['g', 'b'] then some (1024 * 1024 * 1024)
  else none

/-- The amended claim, stated declaratively: the accepted strings are a
digit run that fits `int64` followed by a valid suffix (compared after
Go's Unicode lowercasing, so the Kelvin sign counts as `k`), whose byte
count computed in wrapping 64-bit arithmetic lands inside 1K..1G. -/
def bufferSizeSpec (s : String) : Option Int :=
  let ds := s.data.takeWhile Char.isDigit
  let sfx := (s.data.dropWhile Char.isDigit).map goSimpleLower
  if ds = [] then none
  else
    match suffixMultiplier sfx with
    | none => none
    | some mult =>
      if (digitsVal ds : Int) ≤ 9223372036854775807 then
        let v := wrap64 ((digitsVal ds : Int) * mult)
        if 1024 ≤ v ∧ v ≤ 1073741824 then some v else none
      else none

/-! ## trimVT100 -/
/-- `isVT100End` from the source: ASCII letters end an escape sequence. -/
def isVT100End (b : Nat) : Bool :=
  if 97 ≤ b ∧ b ≤ 122 then true
  else if 65 ≤ b ∧ b ≤ 90 then true
  else false

/-- The loop body of `trimVT100` from the source: a running skip flag,
set by ESC (0x1b) and cleared by the first ASCII letter. -/
def trimVT100Go : Bool → List Nat → List Nat
  | _, [] => []
  | true, c :: rest => if isVT100End c then trimVT100Go false rest else trimVT100Go true rest
  | false, c :: rest =>
    if c = 27 then trimVT100Go true rest else c :: trimVT100Go false rest

/-- `trimVT100` from the source. -/
def trimVT100 (buf : List Nat) : List Nat :=
  trimVT100Go false buf

/-- Drop bytes up to and including the first ASCII letter; drop
everything when no letter follows. -/
def dropThroughLetter : List Nat → List Nat
  | [] => []
  | c :: rest => if isVT100End c then rest else dropThroughLetter rest

/-- The claim's description of `trimVT100` as a recursive specification:
each ESC deletes itself and everything through the next ASCII letter,
all other bytes are kept in order. -/
def trimVT100Spec : List Nat → List Nat
  | [] => []
  | c :: rest =>
    if c = 27 then trimVT100Spec (dropThroughLetter rest) else c :: trimVT100Spec rest
termination_by l => l.length
decreasing_by
  all_goals simp only [List.length_cons]
  · have : (dropThroughLetter rest).length ≤ rest.length := by
      clear * -
      induction rest with
      | nil => simp [dropThroughLetter]
      | cons c rest ih =>
        rw [dropThroughLetter]
        split
        · simp
        · simp only [List.length_cons]
          omega
    omega
  · omega

/-! ## getNewName -/
/-- Candidate names probed by `getNewName`: `name`, then `name.i`. -/
def newNameCand (name : String) (i : Nat) : String :=
  name ++ "." ++ toString i

/-- `getNewName` from the source, with the directory contents abstracted
as the predicate `ex` (true when `os.Stat` does not report
`ErrNotExist` for that entry name under the destination path). -/
def getNewName (ex : String → Bool) (name : String) : Except String String :=
  if ex name = false then .ok name
  else
    match (List.range 1000).find? (fun i => ex (newNameCand name i) = false) with
    | some i => .ok (newNameCand name i)
    | none => .error "Fail to assign new file name"

/-- The directory `{f, f.0, f.1}` of the claim's concrete example. -/
def exampleDirContains (s : String) : Bool :=
  s = "f" ∨ s = "f.0" ∨ s = "f.1"

/-! ## Handshake negotiation in `recvFiles` -/
/-- The fields of the peer's `TransferAction` that `recvFiles` consults. -/
structure TransferAction where
  confirm : Bool
  supportBinary : Bool
  supportDirectory : Bool

/-- The CLI `Args` fields (plus the destination path of `TrzArgs`). -/
structure TrzArgsM where
  quiet : Bool
  overwrite : Bool
  binary : Bool
  escape : Bool
  directory : Bool
  path : String

/-- Outcome of `recvFiles` up to the point the configuration is sent. -/
inductive RecvOutcome where
  | actionError (e : String)
  | cancelled
  | failedBeforeConfig (e : String)
  | configSent (binary : Bool) (directory : Bool)
deriving DecidableEq

/-- `recvFiles` from the source, embedded up to `sendConfig`: receive
the ACT, stop on `confirm=false`, clear the binary flag if unsupported,
fail if directory transfer is unsupported, otherwise send the config
with the negotiated flags. -/
def recvFilesNegotiation (actionResult : Except String TransferAction) (args : TrzArgsM) :
    RecvOutcome :=
  match actionResult with
  | .error e => .actionError e
  | .ok action =>
    if action.confirm = false then .cancelled
    else
      let binary := if args.binary = true ∧ action.supportBinary = false then false
        else args.binary
      if args.directory = true ∧ action.supportDirectory = false then
        .failedBeforeConfig "The client doesn't support transfer directory"
      else .configSent binary args.directory

/-! ## TrzMain

The operating-system results that `TrzMain` consumes (path resolution,
stat, tmux probe, clock, terminal) are gathered in an environment
record; the observable writes become an event trace.
-/
/-- What `os.Stat` reported for the destination path. -/
inductive StatOutcome where
  | notExist
  | statError (e : String)
  | found (isDir : Bool)

/-- `TmuxMode` from the source. -/
inductive TmuxMode where
  | noTmux
  | tmuxNormalMode
  | tmuxControlMode
deriving DecidableEq

/-- Ambient results consumed by `TrzMain`. -/
structure TrzEnv where
  absPath : Except String String
  destStat : StatOutcome
  destWritable : Bool
  tmux : Except String (TmuxMode × Int)
  isWindows : Bool
  nowUnixMilli : Nat
  termColumns : Int
  makeRaw : Except String Unit
  version : String

/-- Observable actions of `TrzMain`, in program order. -/
inductive TrzEvent where
  | stderr (s : String)
  | stdout (s : String)
  | rawModeEnabled
  | handshake (binary : Bool) (directory : Bool)
deriving DecidableEq

/-- `checkPathWritable` from the source: missing path, non-directory
and unwritable destinations each produce their error message. -/
def checkPathWritable (env : TrzEnv) (path : String) : Option String :=
  match env.destStat with
  | .notExist => some ("No such directory: " ++ path)
  | .statError e => some e
  | .found isDir =>
    if isDir = false then some ("Not a directory: " ++ path)
    else if env.destWritable = false then some ("No permission to write: " ++ path)
    else none

/-- The two-digit unique-id suffix: 10 on Windows, 20 under tmux normal
mode, 00 otherwise. -/
def uniqueIdSuffix (isWindows : Bool) (tmuxMode : TmuxMode) : String :=
  if isWindows = true then "10"
  else if tmuxMode = .tmuxNormalMode then "20" else "00"

/-- The unique id: unix milliseconds modulo 10^11 in decimal, then the
platform suffix. -/
def trzUniqueId (nowUnixMilli : Nat) (isWindows : Bool) (tmuxMode : TmuxMode) : String :=
  toString (nowUnixMilli % 100000000000) ++ uniqueIdSuffix isWindows tmuxMode

/-- The initiation marker line written by `TrzMain`. -/
def trzMarker (directory : Bool) (version uniqueId : String) : String :=
  "\x1b7\x07::TRZSZ:TRANSFER:" ++ (if directory = true then "D" else "R") ++ ":"
    ++ version ++ ":" ++ uniqueId ++ "\r\n"

/-- `TrzMain` from the source: validations, binary-mode degradation,
the initiation marker, raw mode, then the handshake; the returned
integer is the exit code. -/
def trzMain (env : TrzEnv) (args : TrzArgsM) : List TrzEvent × Int :=
  match env.absPath with
  | .error e => ([.stderr e], -1)
  | .ok path =>
    match checkPathWritable env path with
    | some e => ([.stderr e], -2)
    | none =>
      match env.tmux with
      | .error e => ([.stderr e], -3)
      | .ok (tmuxMode, _) =>
        let ev1 : List TrzEvent :=
          if args.binary = true ∧ tmuxMode ≠ .noTmux then
            [.stdout "Binary upload in tmux is not supported, auto switch to base64 mode.\n"]
          else []
        let binary1 := if args.binary = true ∧ tmuxMode ≠ .noTmux then false else args.binary
        let ev2 : List TrzEvent :=
          if binary1 = true ∧ env.isWindows = true then
            [.stdout "Binary upload on Windows is not supported, auto switch to base64 mode.\n"]
          else []
        let binary2 := if binary1 = true ∧ env.isWindows = true then false else binary1
        let ev3 : List TrzEvent :=
          if env.isWindows = true then []
          else if tmuxMode = .tmuxNormalMode then
            if 0 < env.termColumns ∧ env.termColumns < 40 then
              [.stdout "\n\n\x1b[2A\x1b[0J"]
            else [.stdout "\n\x1b[1A\x1b[0J"]
          else []
        let marker := trzMarker args.directory env.version
          (trzUniqueId env.nowUnixMilli env.isWindows tmuxMode)
        match env.makeRaw with
        | .error e => (ev1 ++ ev2 ++ ev3 ++ [.stdout marker, .stderr e], -4)
        | .ok _ =>
          (ev1 ++ ev2 ++ ev3 ++ [.stdout marker, .rawModeEnabled,
            .handshake binary2 args.directory], 0)

/-- The fixed prefix of the initiation marker. -/
def markerLead : List Char := "\x1b7\x07::TRZSZ:TRANSFER:".data

/-- An event is a marker write when it is a stdout write starting with
ESC 7 BEL ::TRZSZ:TRANSFER:. -/
def isMarkerEvent : TrzEvent → Bool
  | .stdout s => markerLead.isPrefixOf s.data
  | _ => false

/-- The pre-handshake validation failures of `TrzMain`: unresolvable
destination, failed writability check, or failed tmux probe. -/
def preHandshakeFailure (env : TrzEnv) : Prop :=
  (∃ e, env.absPath = Except.error e)
  ∨ (∃ p, env.absPath = Except.ok p ∧ checkPathWritable env p ≠ none)
  ∨ (∃ p, env.absPath = Except.ok p ∧ checkPathWritable env p = none
      ∧ ∃ e, env.tmux = Except.error e)

/-- A concrete environment whose destination path fails to resolve. -/
def envAbsFail : TrzEnv :=
  ⟨.error "readlink: no such file", .notExist, false, .error "tmux probing failed",
    false, 1700000000000, 80, .ok (), "1.1.7"⟩

/-- Default arguments for witnesses. -/
def argsDefault : TrzArgsM :=
  ⟨false, false, false, false, false, "."⟩

/-- A concrete environment under tmux normal mode. -/
def envTmuxNormal : TrzEnv :=
  ⟨.ok "/home/u/down", .found true, true, .ok (TmuxMode.tmuxNormalMode, 120),
    false, 1700000000123, 80, .ok (), "1.1.7"⟩

/-! ## Path walker: checkPathReadable / checkPathsReadable

The filesystem is a record of the primitives the walker calls.  The Go
recursion is unbounded; here it carries a fuel argument, and the
termination theorem shows that fuel `|dirs| + 1` — as used by
`checkPathsReadable` — never runs out, because every directory visit
inserts a fresh real path into `visitedDir`.
-/
/-- The `os.FileInfo` fields the walker consults. -/
structure FInfo where
  name : String
  isDir : Bool
  isRegular : Bool
deriving DecidableEq

/-- The filesystem primitives used by the walker.  `dirs` lists the
real paths of all directories (the possible results of
`filepath.EvalSymlinks` on a directory). -/
structure Filesys where
  abs : String → Option String
  stat : String → Option FInfo
  evalSymlinks : String → Option String
  readable : String → Bool
  entries : String → Option (List String)
  dirs : List String

/-- `filepath.EvalSymlinks` of a directory path lands in `dirs`. -/
def Filesys.WF (fs : Filesys) : Prop :=
  ∀ p i rp, fs.stat p = some i → i.isDir = true → fs.evalSymlinks p = some rp →
    rp ∈ fs.dirs

/-- `TrzszFile` from the source. -/
structure TrzszFile where
  pathId : Nat
  absPath : String
  relPath : List String
  isDir : Bool
deriving DecidableEq

/-- Result of one walk: the collected records and the updated visited
set, an error, or fuel exhaustion (the walk recursed deeper than the
fuel allowed — shown impossible for the fuel the source model uses). -/
inductive WalkRes where
  | outOfFuel
  | failure (e : String)
  | success (files : List TrzszFile) (visited : List String)
deriving DecidableEq

/-- `filepath.Join` of a directory and an entry name. -/
def pathJoin (p n : String) : String :=
  p ++ "/" ++ n

mutual

/-- `checkPathReadable` from the source: files are checked and
recorded; directories resolve their symlinks, fail on a repeated real
path with "Duplicate link", record themselves, and recurse into their
entries. -/
def checkPathReadable (fs : Filesys) (pathId : Nat) (fuel : Nat) (path : String)
    (info : FInfo) (relPath : List String) (visited : List String) : WalkRes :=
  if info.isDir = false then
    if info.isRegular = false then .failure ("Not a regular file: " ++ path)
    else if fs.readable path = false then .failure ("No permission to read: " ++ path)
    else .success [⟨pathId, path, relPath, false⟩] visited
  else
    match fs.evalSymlinks path with
    | none => .failure ("EvalSymlinks error: " ++ path)
    | some realPath =>
      if visited.contains realPath then .failure ("Duplicate link: " ++ path)
      else
        match fs.entries path with
        | none => .failure ("Readdir error: " ++ path)
        | some names =>
          match fuel with
          | 0 => .outOfFuel
          | fuel' + 1 =>
            match walkChildren fs pathId fuel' path relPath (realPath :: visited) names with
            | .success files visited' =>
              .success (⟨pathId, path, relPath, true⟩ :: files) visited'
            | r => r
termination_by (fuel, 0)

/-- The loop of `checkPathReadable` over the entries of a directory. -/
def walkChildren (fs : Filesys) (pathId : Nat) (fuel : Nat) (path : String)
    (relPath : List String) (visited : List String) (names : List String) : WalkRes :=
  match names with
  | [] => .success [] visited
  | name :: rest =>
    match fs.stat (pathJoin path name) with
    | none => .failure ("Stat error: " ++ pathJoin path name)
    | some info =>
      match checkPathReadable fs pathId fuel (pathJoin path name) info
          (relPath ++ [name]) visited with
      | .success files visited' =>
        match walkChildren fs pathId fuel path relPath visited' rest with
        | .success files2 visited2 => .success (files ++ files2) visited2
        | r => r
      | r => r
termination_by (fuel, names.length + 1)

end

/-- Result of `checkPathsReadable`. -/
inductive PathsRes where
  | outOfFuel
  | failure (e : String)
  | success (files : List TrzszFile)
deriving DecidableEq

/-- The loop of `checkPathsReadable` over the command-line paths, the
index serving as `path_id`; each root starts a fresh `visitedDir`. -/
def checkPathsLoop (fs : Filesys) (directory : Bool) : Nat → List String → PathsRes
  | _, [] => .success []
  | i, p :: rest =>
    match fs.abs p with
    | none => .failure ("Abs error: " ++ p)
    | some path =>
      match fs.stat path with
      | none => .failure ("No such file: " ++ path)
      | some info =>
        if directory = false ∧ info.isDir = true then .failure ("Is a directory: " ++ path)
        else
          match checkPathReadable fs i (fs.dirs.length + 1) path info [info.name] [] with
          | .success files _ =>
            match checkPathsLoop fs directory (i + 1) rest with
            | .success files2 => .success (files ++ files2)
            | .failure e => .failure e
            | .outOfFuel => .outOfFuel
          | .failure e => .failure e
          | .outOfFuel => .outOfFuel

/-- `checkPathsReadable` from the source. -/
def checkPathsReadable (fs : Filesys) (paths : List String) (directory : Bool) : PathsRes :=
  checkPathsLoop fs directory 0 paths

/-- Number of directories not visited yet: the walk's true measure. -/
def unvisitedCount (fs : Filesys) (visited : List String) : Nat :=
  (fs.dirs.filter (fun d => !(visited.contains d))).length

/-- A filesystem with a symlink loop: directory /a contains an entry b,
and /a/b is a symlink whose real path is /a again. -/
def loopFs : Filesys where
  abs := fun p => some p
  stat := fun p =>
    if p = "/a" then some ⟨"a", true, false⟩
    else if p = "/a/b" then some ⟨"b", true, false⟩
    else none
  evalSymlinks := fun p =>
    if p = "/a" then some "/a"
    else if p = "/a/b" then some "/a"
    else none
  readable := fun _ => true
  entries := fun p =>
    if p = "/a" then some ["b"]
    else if p = "/a/b" then some ["b"]
    else none
  dirs := ["/a"]

theorem decChar_encChar : ∀ n, n < 64 → decChar (encChar n) = some n := by decide

theorem encChar_ne_pad : ∀ n, n < 64 → ¬ encChar n = '=' := by decide

theorem b64decode_b64encode :
    ∀ l : List Nat, (∀ x ∈ l, x < 256) → b64decode (b64encode l) = .ok l
  | [], _ => rfl
  | [a], h => by
    have ha : a < 256 := h a (by simp)
    have h0 : a / 4 < 64 := by omega
    have h1 : a % 4 * 16 < 64 := by omega
    simp [b64encode, b64decode, decChar_encChar _ h0, decChar_encChar _ h1]
    omega
  | [a, b], h => by
    have ha : a < 256 := h a (by simp)
    have hb : b < 256 := h b (by simp)
    have h0 : a / 4 < 64 := by omega
    have h1 : a % 4 * 16 + b / 16 < 64 := by omega
    have h2 : b % 16 * 4 < 64 := by omega
    have e1 : (a % 4 * 16 + b / 16) / 16 = a % 4 := by omega
    have e2 : (a % 4 * 16 + b / 16) % 16 = b / 16 := by omega
    simp [b64encode, b64decode, decChar_encChar _ h0, decChar_encChar _ h1,
      decChar_encChar _ h2, encChar_ne_pad _ h2, e1, e2]
    omega
  | a :: b :: c :: d :: rest, h => by
    have ha : a < 256 := h a (by simp)
    have hb : b < 256 := h b (by simp)
    have hc : c < 256 := h c (by simp)
    have h0 : a / 4 < 64 := by omega
    have h1 : a % 4 * 16 + b / 16 < 64 := by omega
    have h2 : b % 16 * 4 + c / 64 < 64 := by omega
    have h3 : c % 64 < 64 := by omega
    have e1 : (a % 4 * 16 + b / 16) / 16 = a % 4 := by omega
    have e2 : (a % 4 * 16 + b / 16) % 16 = b / 16 := by omega
    have e3 : (b % 16 * 4 + c / 64) / 4 = b % 16 := by omega
    have e4 : (b % 16 * 4 + c / 64) % 4 = c / 64 := by omega
    have ih := b64decode_b64encode (d :: rest) (fun x hx => h x (by simp_all))
    simp only [b64encode] at ih ⊢
    simp [b64decode, decChar_encChar _ h0, decChar_encChar _ h1,
      decChar_encChar _ h2, decChar_encChar _ h3, encChar_ne_pad _ h2,
      encChar_ne_pad _ h3, ih, e1, e2, e3, e4]
    omega
  | a :: b :: c :: [], h => by
    have ha : a < 256 := h a (by simp)
    have hb : b < 256 := h b (by simp)
    have hc : c < 256 := h c (by simp)
    have h0 : a / 4 < 64 := by omega
    have h1 : a % 4 * 16 + b / 16 < 64 := by omega
    have h2 : b % 16 * 4 + c / 64 < 64 := by omega
    have h3 : c % 64 < 64 := by omega
    have e1 : (a % 4 * 16 + b / 16) / 16 = a % 4 := by omega
    have e2 : (a % 4 * 16 + b / 16) % 16 = b / 16 := by omega
    have e3 : (b % 16 * 4 + c / 64) / 4 = b % 16 := by omega
    have e4 : (b % 16 * 4 + c / 64) % 4 = c / 64 := by omega
    simp [b64encode, b64decode, decChar_encChar _ h0, decChar_encChar _ h1,
      decChar_encChar _ h2, decChar_encChar _ h3, encChar_ne_pad _ h2,
      encChar_ne_pad _ h3, e1, e2, e3, e4]
    omega

theorem inflateStored_deflateStored :
    ∀ (l extra : List Nat), inflateStored (deflateStored l ++ extra) = .ok (l, extra)
  | l, extra => by
    rw [deflateStored]
    by_cases h : l.length ≤ 65535
    · simp only [if_pos h, storedHeader, List.cons_append, List.nil_append,
        List.append_assoc]
      rw [inflateStored]
      have hm : l.length % 256 + 256 * (l.length / 256) = l.length := Nat.mod_add_div _ _
      have hm2 : (65535 - l.length) % 256 + 256 * ((65535 - l.length) / 256)
          = 65535 - l.length := Nat.mod_add_div _ _
      rw [hm, hm2]
      rw [if_neg (by omega)]
      rw [if_neg (by simp only [List.length_append]; omega)]
      rw [if_pos rfl]
      rw [List.take_left' rfl, List.drop_left' rfl]
    · simp only [if_neg h, storedHeader, List.cons_append, List.nil_append,
        List.append_assoc]
      rw [inflateStored]
      have hm : 65535 % 256 + 256 * (65535 / 256) = 65535 := Nat.mod_add_div _ _
      rw [hm]
      have htk : (l.take 65535).length = 65535 := by
        simp only [List.length_take]
        omega
      rw [if_neg (by norm_num)]
      rw [if_neg (by simp only [List.length_append, htk]; omega)]
      rw [if_neg (by norm_num), if_pos rfl]
      rw [List.take_left' htk, List.drop_left' htk]
      rw [inflateStored_deflateStored (l.drop 65535) extra]
      simp
  termination_by l _ => l.length
  decreasing_by simp [List.length_drop]; omega

theorem zlibDecompress_zlibCompress (l : List Nat) :
    zlibDecompress (zlibCompress l) = .ok l := by
  rw [zlibCompress, zlibDecompress]
  norm_num
  rw [inflateStored_deflateStored]
  simp [adlerBytes]

theorem storedHeader_mem_lt (n : Nat) (hn : n ≤ 65535) : ∀ x ∈ storedHeader n, x < 256 := by
  intro x hx
  simp only [storedHeader, List.mem_cons, List.not_mem_nil, or_false] at hx
  omega

theorem deflateStored_mem_lt :
    ∀ (l : List Nat), (∀ x ∈ l, x < 256) → ∀ x ∈ deflateStored l, x < 256
  | l, h, x, hx => by
    rw [deflateStored] at hx
    by_cases hl : l.length ≤ 65535
    · rw [if_pos hl] at hx
      rcases List.mem_cons.mp hx with hx | hx
      · omega
      rcases List.mem_append.mp hx with hx | hx
      · exact storedHeader_mem_lt _ hl x hx
      · exact h x hx
    · rw [if_neg hl] at hx
      rcases List.mem_cons.mp hx with hx | hx
      · omega
      rcases List.mem_append.mp hx with hx | hx
      · exact storedHeader_mem_lt _ (by omega) x hx
      rcases List.mem_append.mp hx with hx | hx
      · exact h x (List.take_subset _ _ hx)
      · exact deflateStored_mem_lt (l.drop 65535)
          (fun y hy => h y (List.drop_subset _ _ hy)) x hx
  termination_by l => l.length
  decreasing_by simp [List.length_drop]; omega

theorem zlibCompress_mem_lt (l : List Nat) (h : ∀ x ∈ l, x < 256) :
    ∀ x ∈ zlibCompress l, x < 256 := by
  intro x hx
  rw [zlibCompress] at hx
  rcases List.mem_cons.mp hx with hx | hx
  · omega
  rcases List.mem_cons.mp hx with hx | hx
  · omega
  rcases List.mem_append.mp hx with hx | hx
  · exact deflateStored_mem_lt l h x hx
  · simp only [adlerBytes, List.mem_cons, List.not_mem_nil, or_false] at hx
    omega

/-- C1: for every byte string `b`, `decodeString (encodeBytes b)`
succeeds and returns exactly `b`: `encodeBytes` zlib-compresses and
base64-encodes, and `decodeString` inverts both steps without loss. -/
theorem decodeString_encodeBytes (b : List Nat) (h : ∀ x ∈ b, x < 256) :
    decodeString (encodeBytes b) = .ok b := by
  show (match b64decode (b64encode (zlibCompress b)) with
    | .ok bs => zlibDecompress bs
    | .error e => .error e) = .ok b
  rw [b64decode_b64encode _ (zlibCompress_mem_lt b h)]
  exact zlibDecompress_zlibCompress b

/-- C1 witness: the round trip at the concrete byte string `[104, 105]`. -/
theorem decodeString_encodeBytes_witness :
    (∀ x ∈ [104, 105], x < 256) ∧ decodeString (encodeBytes [104, 105]) = .ok [104, 105] :=
  ⟨by decide, decodeString_encodeBytes [104, 105] (by decide)⟩

/-- C5: for `errType` among EXIT/fail/FAIL the stored message is the
base64+zlib decoding of the given message (or a decode-error fallback);
a stack trace is appended iff `trace` is true and `errType` is neither
"fail" nor "EXIT"; `isRemoteExit` holds iff `errType = "EXIT"`, and
`isRemoteFail` holds iff `errType` is "fail" or "FAIL". -/
theorem NewTrzszError_spec (message errType : String) (trace : Bool) (stack : String) :
    (NewTrzszError message errType trace stack).message
      = trzszBaseMessage message errType
        ++ (if trace ∧ ¬ errType = "fail" ∧ ¬ errType = "EXIT" then "\n" ++ stack else "")
    ∧ (errType = "fail" ∨ errType = "FAIL" ∨ errType = "EXIT" →
        trzszBaseMessage message errType
          = match decodeString message with
            | .error err => "decode [" ++ message ++ "] error: " ++ err
            | .ok msg => bytesToString msg)
    ∧ ((NewTrzszError message errType trace stack).isRemoteExit = true ↔ errType = "EXIT")
    ∧ ((NewTrzszError message errType trace stack).isRemoteFail = true
        ↔ (errType = "fail" ∨ errType = "FAIL")) := by
  have hty : (NewTrzszError message errType trace stack).errType = errType := by
    rw [NewTrzszError, apply_ite TrzszError.errType]
    simp
  refine ⟨?_, ?_, ?_, ?_⟩
  · simp only [NewTrzszError, trzszBaseMessage, TrzszError.isTraceBack]
    by_cases hf : errType = "fail"
    · simp [hf]
    by_cases he : errType = "EXIT"
    · simp [he, hf]
    by_cases ht : trace
    · simp [hf, he, ht, String.append_assoc]
    · simp [hf, he, ht]
  · intro h
    rw [trzszBaseMessage, if_pos h]
  · simp [TrzszError.isRemoteExit, hty]
  · simp [TrzszError.isRemoteFail, hty]

/-- C5 witness: a remote "fail" error at concrete inputs never carries a
stack trace, and both classification predicates behave as stated. -/
theorem NewTrzszError_spec_witness :
    (NewTrzszError (encodeString "oops") "fail" true "stacktrace").message
      = trzszBaseMessage (encodeString "oops") "fail"
    ∧ ((NewTrzszError (encodeString "oops") "fail" true "stacktrace").isRemoteFail = true
        ↔ ("fail" = "fail" ∨ "fail" = "FAIL")) := by
  have h := NewTrzszError_spec (encodeString "oops") "fail" true "stacktrace"
  refine ⟨?_, h.2.2.2⟩
  have h1 := h.1
  rw [if_neg (by simp)] at h1
  simpa using h1

theorem wrap64_eq_self (x : Int) (h0 : 0 ≤ x) (h1 : x ≤ 9223372036854775807) :
    wrap64 x = x := by
  have hm : (x + 2 ^ 63) % 2 ^ 64 = x + 2 ^ 63 := Int.emod_eq_of_lt (by omega) (by omega)
  rw [wrap64, hm]
  omega

/-- C7 counterexample: the string "17179869185g" denotes
17179869185 · 2^30 bytes, far above 1 GiB, yet `UnmarshalText`
accepts it because the Go `int64` product wraps to exactly 2^30. -/
theorem unmarshalText_overflow_counterexample :
    unmarshalText "17179869185g" = .ok 1073741824
    ∧ (1073741824 : Int) < 17179869185 * 1073741824 := by
  constructor
  · rfl
  · decide

/-- C7 (amended): `UnmarshalText` succeeds exactly on a decimal digit
run fitting `int64` with an optional case-insensitive suffix among
b/k/kb/m/mb/g/gb, whose byte count computed in wrapping 64-bit
arithmetic lies between 1024 and 2^30 inclusive; that wrapped count is
stored; every other input is rejected. -/
theorem unmarshalText_spec (s : String) (v : Int) :
    unmarshalText s = .ok v ↔ bufferSizeSpec s = some v := by
  rw [unmarshalText, bufferSizeSpec, sizeRegexMatch, suffixMultiplier]
  by_cases hd : s.data.takeWhile Char.isDigit = []
  · simp only [if_pos hd]
    simp
  simp only [if_neg hd]
  by_cases hs : (s.data.dropWhile Char.isDigit).map goSimpleLower = []
      ∨ (s.data.dropWhile Char.isDigit).map goSimpleLower = ['b']
      ∨ (s.data.dropWhile Char.isDigit).map goSimpleLower = ['k']
      ∨ (s.data.dropWhile Char.isDigit).map goSimpleLower = ['m']
      ∨ (s.data.dropWhile Char.isDigit).map goSimpleLower = ['g']
      ∨ (s.data.dropWhile Char.isDigit).map goSimpleLower = ['k', 'b']
      ∨ (s.data.dropWhile Char.isDigit).map goSimpleLower = ['m', 'b']
      ∨ (s.data.dropWhile Char.isDigit).map goSimpleLower = ['g', 'b']
  case neg =>
    have hA : ¬ ((s.data.dropWhile Char.isDigit).map goSimpleLower = []
        ∨ (s.data.dropWhile Char.isDigit).map goSimpleLower = ['b']) := by tauto
    have hB : ¬ ((s.data.dropWhile Char.isDigit).map goSimpleLower = ['k']
        ∨ (s.data.dropWhile Char.isDigit).map goSimpleLower = ['k', 'b']) := by tauto
    have hC : ¬ ((s.data.dropWhile Char.isDigit).map goSimpleLower = ['m']
        ∨ (s.data.dropWhile Char.isDigit).map goSimpleLower = ['m', 'b']) := by tauto
    have hD : ¬ ((s.data.dropWhile Char.isDigit).map goSimpleLower = ['g']
        ∨ (s.data.dropWhile Char.isDigit).map goSimpleLower = ['g', 'b']) := by tauto
    simp only [if_neg hs, if_neg hA, if_neg hB, if_neg hC, if_neg hD]
    simp
  simp only [if_pos hs]
  by_cases h1 : (s.data.dropWhile Char.isDigit).map goSimpleLower = []
      ∨ (s.data.dropWhile Char.isDigit).map goSimpleLower = ['b']
  · simp only [if_pos h1]
    by_cases hbig : 9223372036854775807 < digitsVal (s.data.takeWhile Char.isDigit)
    · simp only [if_pos hbig, if_neg (show ¬ ((digitsVal (s.data.takeWhile Char.isDigit) : Int)
        ≤ 9223372036854775807) by omega)]
      simp
    simp only [if_neg hbig, if_pos (show (digitsVal (s.data.takeWhile Char.isDigit) : Int)
        ≤ 9223372036854775807 by omega)]
    rw [mul_one, wrap64_eq_self _ (by omega) (by omega)]
    by_cases hlo : (digitsVal (s.data.takeWhile Char.isDigit) : Int) < 1024
    · simp only [if_pos hlo,
        if_neg (show ¬ (1024 ≤ (digitsVal (s.data.takeWhile Char.isDigit) : Int)
          ∧ (digitsVal (s.data.takeWhile Char.isDigit) : Int) ≤ 1073741824) by omega)]
      simp
    by_cases hhi : (1024 * 1024 * 1024 : Int) < (digitsVal (s.data.takeWhile Char.isDigit) : Int)
    · simp only [if_neg hlo, if_pos hhi,
        if_neg (show ¬ (1024 ≤ (digitsVal (s.data.takeWhile Char.isDigit) : Int)
          ∧ (digitsVal (s.data.takeWhile Char.isDigit) : Int) ≤ 1073741824) by omega)]
      simp
    · simp only [if_neg hlo, if_neg hhi,
        if_pos (show (1024 ≤ (digitsVal (s.data.takeWhile Char.isDigit) : Int)
          ∧ (digitsVal (s.data.takeWhile Char.isDigit) : Int) ≤ 1073741824) by omega)]
      simp
  simp only [if_neg h1]
  by_cases h2 : (s.data.dropWhile Char.isDigit).map goSimpleLower = ['k']
      ∨ (s.data.dropWhile Char.isDigit).map goSimpleLower = ['k', 'b']
  · simp only [if_pos h2]
    by_cases hbig : 9223372036854775807 < digitsVal (s.data.takeWhile Char.isDigit)
    · simp only [if_pos hbig, if_neg (show ¬ ((digitsVal (s.data.takeWhile Char.isDigit) : Int)
        ≤ 9223372036854775807) by omega)]
      simp
    simp only [if_neg hbig, if_pos (show (digitsVal (s.data.takeWhile Char.isDigit) : Int)
        ≤ 9223372036854775807 by omega)]
    by_cases hlo : wrap64 ((digitsVal (s.data.takeWhile Char.isDigit) : Int) * 1024) < 1024
    · simp only [if_pos hlo,
        if_neg (show ¬ (1024 ≤ wrap64 ((digitsVal (s.data.takeWhile Char.isDigit) : Int) * 1024)
          ∧ wrap64 ((digitsVal (s.data.takeWhile Char.isDigit) : Int) * 1024) ≤ 1073741824)
          by omega)]
      simp
    by_cases hhi : (1024 * 1024 * 1024 : Int)
        < wrap64 ((digitsVal (s.data.takeWhile Char.isDigit) : Int) * 1024)
    · simp only [if_neg hlo, if_pos hhi,
        if_neg (show ¬ (1024 ≤ wrap64 ((digitsVal (s.data.takeWhile Char.isDigit) : Int) * 1024)
          ∧ wrap64 ((digitsVal (s.data.takeWhile Char.isDigit) : Int) * 1024) ≤ 1073741824)
          by omega)]
      simp
    · simp only [if_neg hlo, if_neg hhi,
        if_pos (show (1024 ≤ wrap64 ((digitsVal (s.data.takeWhile Char.isDigit) : Int) * 1024)
          ∧ wrap64 ((digitsVal (s.data.takeWhile Char.isDigit) : Int) * 1024) ≤ 1073741824)
          by omega)]
      simp
  simp only [if_neg h2]
  by_cases h3 : (s.data.dropWhile Char.isDigit).map goSimpleLower = ['m']
      ∨ (s.data.dropWhile Char.isDigit).map goSimpleLower = ['m', 'b']
  · simp only [if_pos h3]
    by_cases hbig : 9223372036854775807 < digitsVal (s.data.takeWhile Char.isDigit)
    · simp only [if_pos hbig, if_neg (show ¬ ((digitsVal (s.data.takeWhile Char.isDigit) : Int)
        ≤ 9223372036854775807) by omega)]
      simp
    simp only [if_neg hbig, if_pos (show (digitsVal (s.data.takeWhile Char.isDigit) : Int)
        ≤ 9223372036854775807 by omega)]
    by_cases hlo : wrap64 ((digitsVal (s.data.takeWhile Char.isDigit) : Int)
        * (1024 * 1024)) < 1024
    · simp only [if_pos hlo,
        if_neg (show ¬ (1024 ≤ wrap64 ((digitsVal (s.data.takeWhile Char.isDigit) : Int)
            * (1024 * 1024))
          ∧ wrap64 ((digitsVal (s.data.takeWhile Char.isDigit) : Int) * (1024 * 1024))
            ≤ 1073741824) by omega)]
      simp
    by_cases hhi : (1024 * 1024 * 1024 : Int)
        < wrap64 ((digitsVal (s.data.takeWhile Char.isDigit) : Int) * (1024 * 1024))
    · simp only [if_neg hlo, if_pos hhi,
        if_neg (show ¬ (1024 ≤ wrap64 ((digitsVal (s.data.takeWhile Char.isDigit) : Int)
            * (1024 * 1024))
          ∧ wrap64 ((digitsVal (s.data.takeWhile Char.isDigit) : Int) * (1024 * 1024))
            ≤ 1073741824) by omega)]
      simp
    · simp only [if_neg hlo, if_neg hhi,
        if_pos (show (1024 ≤ wrap64 ((digitsVal (s.data.takeWhile Char.isDigit) : Int)
            * (1024 * 1024))
          ∧ wrap64 ((digitsVal (s.data.takeWhile Char.isDigit) : Int) * (1024 * 1024))
            ≤ 1073741824) by omega)]
      simp
  simp only [if_neg h3]
  have h4 : (s.data.dropWhile Char.isDigit).map goSimpleLower = ['g']
      ∨ (s.data.dropWhile Char.isDigit).map goSimpleLower = ['g', 'b'] := by
    tauto
  simp only [if_pos h4]
  by_cases hbig : 9223372036854775807 < digitsVal (s.data.takeWhile Char.isDigit)
  · simp only [if_pos hbig, if_neg (show ¬ ((digitsVal (s.data.takeWhile Char.isDigit) : Int)
      ≤ 9223372036854775807) by omega)]
    simp
  simp only [if_neg hbig, if_pos (show (digitsVal (s.data.takeWhile Char.isDigit) : Int)
      ≤ 9223372036854775807 by omega)]
  by_cases hlo : wrap64 ((digitsVal (s.data.takeWhile Char.isDigit) : Int)
      * (1024 * 1024 * 1024)) < 1024
  · simp only [if_pos hlo,
      if_neg (show ¬ (1024 ≤ wrap64 ((digitsVal (s.data.takeWhile Char.isDigit) : Int)
          * (1024 * 1024 * 1024))
        ∧ wrap64 ((digitsVal (s.data.takeWhile Char.isDigit) : Int) * (1024 * 1024 * 1024))
          ≤ 1073741824) by omega)]
    simp
  by_cases hhi : (1024 * 1024 * 1024 : Int)
      < wrap64 ((digitsVal (s.data.takeWhile Char.isDigit) : Int) * (1024 * 1024 * 1024))
  · simp only [if_neg hlo, if_pos hhi,
      if_neg (show ¬ (1024 ≤ wrap64 ((digitsVal (s.data.takeWhile Char.isDigit) : Int)
          * (1024 * 1024 * 1024))
        ∧ wrap64 ((digitsVal (s.data.takeWhile Char.isDigit) : Int) * (1024 * 1024 * 1024))
          ≤ 1073741824) by omega)]
    simp
  · simp only [if_neg hlo, if_neg hhi,
      if_pos (show (1024 ≤ wrap64 ((digitsVal (s.data.takeWhile Char.isDigit) : Int)
          * (1024 * 1024 * 1024))
        ∧ wrap64 ((digitsVal (s.data.takeWhile Char.isDigit) : Int) * (1024 * 1024 * 1024))
          ≤ 1073741824) by omega)]
    simp

/-- The Unicode-folding case of the size suffix: a Kelvin-sign (U+212A)
suffix is matched as `k`, as Go's case-insensitive regexp matches it,
so "1024" followed by the Kelvin sign stores 1024 KiB. -/
theorem unmarshalText_kelvin_sign : unmarshalText "1024\u212A" = .ok 1048576 := rfl

theorem trimVT100Go_true (l : List Nat) :
    trimVT100Go true l = trimVT100Go false (dropThroughLetter l) := by
  induction l with
  | nil => rfl
  | cons c rest ih =>
    rw [trimVT100Go, dropThroughLetter]
    split
    · rfl
    · exact ih

/-- C8: `trimVT100` removes each ESC byte together with all following
bytes up to and including the first ASCII letter, keeps every other
byte unchanged and in order, and drops everything after an ESC not
followed by any letter. -/
theorem trimVT100_eq_spec : ∀ l : List Nat, trimVT100 l = trimVT100Spec l := by
  have key : ∀ n (l : List Nat), l.length ≤ n → trimVT100Go false l = trimVT100Spec l := by
    intro n
    induction n with
    | zero =>
      intro l hl
      have : l = [] := List.eq_nil_of_length_eq_zero (by omega)
      subst this
      simp [trimVT100Go, trimVT100Spec]
    | succ n ih =>
      intro l hl
      match l with
      | [] => simp [trimVT100Go, trimVT100Spec]
      | c :: rest =>
        rw [trimVT100Go, trimVT100Spec]
        split
        · rw [trimVT100Go_true]
          have hlen : (dropThroughLetter rest).length ≤ rest.length := by
            clear * -
            induction rest with
            | nil => simp [dropThroughLetter]
            | cons c rest ih =>
              rw [dropThroughLetter]
              split
              · simp
              · simp only [List.length_cons]
                omega
          exact ih _ (by simp only [List.length_cons] at hl; omega)
        · rw [ih rest (by simp only [List.length_cons] at hl; omega)]
  intro l
  exact key l.length l (le_refl _)

theorem find_range_eq_some (p : Nat → Bool) (i n : Nat) (hin : i < n) (hp : p i = true)
    (hmin : ∀ j, j < i → p j = false) : (List.range n).find? p = some i := by
  have general : ∀ (len s : Nat), s ≤ i → i < s + len →
      (∀ j, s ≤ j → j < i → p j = false) → (List.range' s len).find? p = some i := by
    intro len
    induction len with
    | zero => omega
    | succ len ih =>
      intro s hsi hub hbelow
      rw [List.range'_succ, List.find?]
      by_cases hsi2 : s = i
      · subst hsi2
        rw [hp]
      · rw [hbelow s (le_refl _) (by omega)]
        exact ih (s + 1) (by omega) (by omega) (fun j hj1 hj2 => hbelow j (by omega) hj2)
  rw [List.range_eq_range']
  exact general n 0 (Nat.zero_le _) (by omega) (fun j _ hj => hmin j hj)

theorem find_range_eq_none (p : Nat → Bool) (n : Nat) (hall : ∀ j, j < n → p j = false) :
    (List.range n).find? p = none := by
  rw [List.find?_eq_none]
  intro x hx
  simp only [List.mem_range] at hx
  simp [hall x hx]

/-- C2: `getNewName` returns `name` when no entry of that name exists;
otherwise it returns the first of `name.0`, ..., `name.999` that does
not exist; and it fails with "Fail to assign new file name" when all
of those exist. -/
theorem getNewName_spec (ex : String → Bool) (name : String) :
    (ex name = false → getNewName ex name = .ok name)
    ∧ (∀ i, i < 1000 → ex name = true → ex (newNameCand name i) = false →
        (∀ j, j < i → ex (newNameCand name j) = true) →
        getNewName ex name = .ok (newNameCand name i))
    ∧ (ex name = true → (∀ i, i < 1000 → ex (newNameCand name i) = true) →
        getNewName ex name = .error "Fail to assign new file name") := by
  refine ⟨?_, ?_, ?_⟩
  · intro h
    rw [getNewName, if_pos h]
  · intro i hi hex hfree htaken
    rw [getNewName, if_neg (by simp [hex])]
    rw [find_range_eq_some _ i 1000 hi (by simp [hfree])
      (fun j hj => by simp [htaken j hj])]
  · intro hex hall
    rw [getNewName, if_neg (by simp [hex])]
    rw [find_range_eq_none _ 1000 (fun j hj => by simp [hall j hj])]

/-- C2 witness: in a directory containing exactly f, f.0 and f.1,
`getNewName dir "f"` returns "f.2". -/
theorem getNewName_spec_witness :
    exampleDirContains "f" = true
    ∧ exampleDirContains (newNameCand "f" 2) = false
    ∧ (∀ j, j < 2 → exampleDirContains (newNameCand "f" j) = true)
    ∧ getNewName exampleDirContains "f" = .ok "f.2" := by
  refine ⟨by decide, by decide, ?taken, ?_⟩
  case taken =>
    intro j hj
    interval_cases j
    · decide
    · decide
  · have h := (getNewName_spec exampleDirContains "f").2.1 2 (by decide) (by decide)
      (by decide)
      (fun j hj => by interval_cases j <;> decide)
    simpa [newNameCand] using h

/-- C4: after a confirmed ACT, an unsupported binary request silently
degrades to base64 (the config is still sent, with the binary flag
cleared), while an unsupported directory request fails with the error
"The client doesn't support transfer directory" before any config. -/
theorem recvFiles_negotiation_spec (action : TransferAction) (args : TrzArgsM)
    (hconfirm : action.confirm = true) :
    (args.binary = true → action.supportBinary = false →
      ¬ (args.directory = true ∧ action.supportDirectory = false) →
      recvFilesNegotiation (.ok action) args = .configSent false args.directory)
    ∧ (args.directory = true → action.supportDirectory = false →
      recvFilesNegotiation (.ok action) args
        = .failedBeforeConfig "The client doesn't support transfer directory") := by
  constructor
  · intro hb hsb hnd
    rw [recvFilesNegotiation, if_neg (by simp [hconfirm])]
    rw [if_neg hnd, if_pos (by simp [hb, hsb])]
  · intro hd hsd
    rw [recvFilesNegotiation, if_neg (by simp [hconfirm])]
    rw [if_pos (by simp [hd, hsd])]

/-- C4 witness: at a concrete confirmed ACT without binary support, the
config is sent in base64 mode; with a directory request against a peer
without directory support, the handshake fails before the config. -/
theorem recvFiles_negotiation_spec_witness :
    recvFilesNegotiation (.ok ⟨true, false, true⟩) ⟨false, false, true, false, false, "."⟩
      = .configSent false false
    ∧ recvFilesNegotiation (.ok ⟨true, true, false⟩) ⟨false, false, false, false, true, "."⟩
      = .failedBeforeConfig "The client doesn't support transfer directory" :=
  ⟨(recvFiles_negotiation_spec ⟨true, false, true⟩ ⟨false, false, true, false, false, "."⟩
      rfl).1 rfl rfl (by simp),
   (recvFiles_negotiation_spec ⟨true, true, false⟩ ⟨false, false, false, false, true, "."⟩
      rfl).2 rfl rfl⟩

theorem isPrefixOf_append_self (l t : List Char) : l.isPrefixOf (l ++ t) = true := by
  induction l with
  | nil => simp
  | cons c rest ih => simp [List.cons_append, List.isPrefixOf_cons₂, ih]

theorem isMarkerEvent_marker (d : Bool) (v u : String) :
    isMarkerEvent (.stdout (trzMarker d v u)) = true := by
  rw [isMarkerEvent, trzMarker, markerLead]
  have : ("\x1b7\x07::TRZSZ:TRANSFER:" ++ (if d = true then "D" else "R") ++ ":"
      ++ v ++ ":" ++ u ++ "\r\n").data
      = "\x1b7\x07::TRZSZ:TRANSFER:".data ++ (((if d = true then "D" else "R") ++ ":"
        ++ v ++ ":" ++ u ++ "\r\n").data) := by
    simp [String.data_append]
  rw [this]
  exact isPrefixOf_append_self _ _

/-- C9: a pre-handshake validation failure makes `TrzMain` return a
negative exit code, and the only observable action is the error on
stderr — no initiation marker, no raw mode, no handshake. -/
theorem trzMain_validation_failure (env : TrzEnv) (args : TrzArgsM)
    (h : preHandshakeFailure env) :
    (trzMain env args).2 < 0
    ∧ ∀ ev ∈ (trzMain env args).1, ∃ s, ev = .stderr s := by
  rcases h with ⟨e, he⟩ | ⟨p, hp, hw⟩ | ⟨p, hp, hw, e, he⟩
  · rw [trzMain, he]
    refine ⟨by norm_num, ?_⟩
    intro ev hev
    simp only [List.mem_singleton] at hev
    exact ⟨e, hev⟩
  · obtain ⟨e2, hcw⟩ : ∃ e2, checkPathWritable env p = some e2 := by
      rcases hM : checkPathWritable env p with _ | e2
      · exact absurd hM hw
      · exact ⟨e2, rfl⟩
    rw [trzMain, hp]
    dsimp only
    rw [hcw]
    refine ⟨by norm_num, ?_⟩
    intro ev hev
    simp only [List.mem_singleton] at hev
    exact ⟨e2, hev⟩
  · rw [trzMain, hp]
    dsimp only
    rw [hw]
    dsimp only
    rw [he]
    refine ⟨by norm_num, ?_⟩
    intro ev hev
    simp only [List.mem_singleton] at hev
    exact ⟨e, hev⟩

/-- C9 witness: the failure behaviour at a concrete environment. -/
theorem trzMain_validation_failure_witness :
    preHandshakeFailure envAbsFail
    ∧ (trzMain envAbsFail argsDefault).2 < 0
    ∧ ∀ ev ∈ (trzMain envAbsFail argsDefault).1, ∃ s, ev = TrzEvent.stderr s := by
  have hpre : preHandshakeFailure envAbsFail := Or.inl ⟨"readlink: no such file", rfl⟩
  have h := trzMain_validation_failure envAbsFail argsDefault hpre
  exact ⟨hpre, h.1, h.2⟩

/-- C6: whenever the validations pass, the event trace contains exactly
one stdout write beginning with ESC 7 BEL `::TRZSZ:TRANSFER:`, and that
line is the marker `ESC 7 BEL ::TRZSZ:TRANSFER:<MODE>:<VERSION>:<UID>
CR LF` with MODE `D` iff the directory flag is set and UID the decimal
of unix-millis mod 10^11 followed by 10 (Windows), 20 (tmux normal
mode) or 00 (otherwise). -/
theorem trzMain_marker_spec (env : TrzEnv) (args : TrzArgsM) (p : String)
    (tmuxMode : TmuxMode) (width : Int)
    (habs : env.absPath = .ok p)
    (hwr : checkPathWritable env p = none)
    (htm : env.tmux = .ok (tmuxMode, width)) :
    (trzMain env args).1.filter isMarkerEvent
      = [.stdout ("\x1b7\x07::TRZSZ:TRANSFER:"
          ++ (if args.directory = true then "D" else "R") ++ ":" ++ env.version ++ ":"
          ++ (toString (env.nowUnixMilli % 100000000000)
            ++ (if env.isWindows = true then "10"
                else if tmuxMode = TmuxMode.tmuxNormalMode then "20" else "00"))
          ++ "\r\n")] := by
  have hev1 : List.filter isMarkerEvent
      (if args.binary = true ∧ tmuxMode ≠ TmuxMode.noTmux
        then [TrzEvent.stdout
          "Binary upload in tmux is not supported, auto switch to base64 mode.\n"]
        else []) = [] := by
    split
    · decide
    · rfl
  have hev2 : List.filter isMarkerEvent
      (if (if args.binary = true ∧ tmuxMode ≠ TmuxMode.noTmux then false
          else args.binary) = true ∧ env.isWindows = true
        then [TrzEvent.stdout
          "Binary upload on Windows is not supported, auto switch to base64 mode.\n"]
        else []) = [] := by
    by_cases hc : (if args.binary = true ∧ tmuxMode ≠ TmuxMode.noTmux then false
        else args.binary) = true ∧ env.isWindows = true
    · rw [if_pos hc]
      decide
    · rw [if_neg hc]
      rfl
  have hev3 : List.filter isMarkerEvent
      (if env.isWindows = true then []
        else if tmuxMode = TmuxMode.tmuxNormalMode then
          if 0 < env.termColumns ∧ env.termColumns < 40 then
            [TrzEvent.stdout "\n\n\x1b[2A\x1b[0J"]
          else [TrzEvent.stdout "\n\x1b[1A\x1b[0J"]
        else []) = [] := by
    split
    · rfl
    split
    · split
      · decide
      · decide
    · rfl
  rw [trzMain, habs]
  dsimp only
  rw [hwr]
  dsimp only
  rw [htm]
  dsimp only
  rcases hmr : env.makeRaw with e | u
  · simp only [List.filter_append, hev1, hev2, hev3, List.nil_append,
      List.filter_cons, isMarkerEvent_marker, List.filter_nil]
    rw [trzMarker, trzUniqueId, uniqueIdSuffix]
    simp [isMarkerEvent]
  · simp only [List.filter_append, hev1, hev2, hev3, List.nil_append,
      List.filter_cons, isMarkerEvent_marker, List.filter_nil]
    rw [trzMarker, trzUniqueId, uniqueIdSuffix]
    simp [isMarkerEvent]

/-- C6 witness: the marker at a concrete environment. -/
theorem trzMain_marker_spec_witness :
    envTmuxNormal.absPath = .ok "/home/u/down"
    ∧ checkPathWritable envTmuxNormal "/home/u/down" = none
    ∧ envTmuxNormal.tmux = .ok (TmuxMode.tmuxNormalMode, 120)
    ∧ (trzMain envTmuxNormal argsDefault).1.filter isMarkerEvent
      = [.stdout ("\x1b7\x07::TRZSZ:TRANSFER:"
          ++ (if argsDefault.directory = true then "D" else "R") ++ ":"
          ++ envTmuxNormal.version ++ ":"
          ++ (toString (envTmuxNormal.nowUnixMilli % 100000000000)
            ++ (if envTmuxNormal.isWindows = true then "10"
                else if TmuxMode.tmuxNormalMode = TmuxMode.tmuxNormalMode then "20" else "00"))
          ++ "\r\n")] :=
  ⟨rfl, rfl, rfl,
    trzMain_marker_spec envTmuxNormal argsDefault "/home/u/down"
      TmuxMode.tmuxNormalMode 120 rfl rfl rfl⟩

theorem mem_ite_list {α : Type} {c : Prop} [Decidable c] (x : α) (L M : List α) :
    x ∈ (if c then L else M) ↔ (c ∧ x ∈ L) ∨ (¬ c ∧ x ∈ M) := by
  split
  · simp_all
  · simp_all

/-- C10: whenever the handshake is reached under tmux (normal or
control mode) or on Windows, every handshake event carries a cleared
binary flag — binary transfer is never negotiated there — and when
`-b` was requested one of the two switch-to-base64 notices is
printed (before the marker, by construction of the trace). -/
theorem trzMain_binary_disabled (env : TrzEnv) (args : TrzArgsM) (p : String)
    (tmuxMode : TmuxMode) (width : Int) (u : Unit)
    (habs : env.absPath = .ok p)
    (hwr : checkPathWritable env p = none)
    (htm : env.tmux = .ok (tmuxMode, width))
    (hraw : env.makeRaw = .ok u)
    (hcond : tmuxMode ≠ TmuxMode.noTmux ∨ env.isWindows = true) :
    (∀ b d, TrzEvent.handshake b d ∈ (trzMain env args).1 → b = false)
    ∧ TrzEvent.handshake false args.directory ∈ (trzMain env args).1
    ∧ (args.binary = true →
        TrzEvent.stdout "Binary upload in tmux is not supported, auto switch to base64 mode.\n"
          ∈ (trzMain env args).1
        ∨ TrzEvent.stdout
            "Binary upload on Windows is not supported, auto switch to base64 mode.\n"
          ∈ (trzMain env args).1) := by
  rw [trzMain, habs]
  dsimp only
  rw [hwr]
  dsimp only
  rw [htm]
  dsimp only
  rw [hraw]
  have hb2 : (if (if args.binary = true ∧ tmuxMode ≠ TmuxMode.noTmux then false
      else args.binary) = true ∧ env.isWindows = true then false
      else if args.binary = true ∧ tmuxMode ≠ TmuxMode.noTmux then false
      else args.binary) = false := by
    by_cases ht : tmuxMode = TmuxMode.noTmux
    · have hwin : env.isWindows = true := by tauto
      cases hb : args.binary
      · simp [ht, hb]
      · simp [ht, hb, hwin]
    · cases hb : args.binary
      · simp [ht, hb]
      · simp [ht, hb]
  rw [hb2]
  refine ⟨?_, ?_, ?_⟩
  · intro b d hmem
    simp only [mem_ite_list, List.mem_append, List.mem_cons,
      List.not_mem_nil, List.mem_singleton] at hmem
    simp_all
  · simp only [mem_ite_list, List.mem_append, List.mem_cons,
      List.not_mem_nil, List.mem_singleton]
    simp
  · intro hb
    by_cases ht : tmuxMode = TmuxMode.noTmux
    · have hwin : env.isWindows = true := by tauto
      right
      simp only [mem_ite_list, List.mem_append, List.mem_cons,
        List.not_mem_nil, List.mem_singleton]
      simp [hb, ht, hwin]
    · left
      simp only [mem_ite_list, List.mem_append, List.mem_cons,
        List.not_mem_nil, List.mem_singleton]
      simp [hb, ht]

/-- C10 witness: with `-b` under tmux normal mode at a concrete
environment, the handshake is entered with the binary flag cleared and
the tmux notice is printed. -/
theorem trzMain_binary_disabled_witness :
    (∀ b d, TrzEvent.handshake b d
        ∈ (trzMain envTmuxNormal ⟨false, false, true, false, false, "."⟩).1 → b = false)
    ∧ TrzEvent.handshake false false
      ∈ (trzMain envTmuxNormal ⟨false, false, true, false, false, "."⟩).1
    ∧ (TrzEvent.stdout "Binary upload in tmux is not supported, auto switch to base64 mode.\n"
        ∈ (trzMain envTmuxNormal ⟨false, false, true, false, false, "."⟩).1
      ∨ TrzEvent.stdout
          "Binary upload on Windows is not supported, auto switch to base64 mode.\n"
        ∈ (trzMain envTmuxNormal ⟨false, false, true, false, false, "."⟩).1) := by
  have h := trzMain_binary_disabled envTmuxNormal ⟨false, false, true, false, false, "."⟩
    "/home/u/down" TmuxMode.tmuxNormalMode 120 () rfl rfl rfl rfl
    (Or.inl (by decide))
  exact ⟨h.1, h.2.1, h.2.2 rfl⟩

theorem contains_append_of_contains (pre l : List String) (x : String)
    (h : l.contains x = true) : (pre ++ l).contains x = true := by
  induction pre with
  | nil => exact h
  | cons a rest ih =>
    rw [List.cons_append]
    simp only [List.contains_cons]
    rw [ih]
    simp

theorem contains_cons_of_contains (a x : String) (l : List String)
    (h : l.contains x = true) : (a :: l).contains x = true := by
  rw [List.contains_cons, h]
  simp

theorem filter_not_contains_mono (dirs v w : List String)
    (himp : ∀ x, v.contains x = true → w.contains x = true) :
    (dirs.filter (fun d => !(w.contains d))).length
      ≤ (dirs.filter (fun d => !(v.contains d))).length := by
  induction dirs with
  | nil => simp
  | cons d rest ih =>
    rcases hw : w.contains d with _ | _
    · have hv : v.contains d = false := by
        rcases hv : v.contains d with _ | _
        · rfl
        · rw [himp d hv] at hw
          cases hw
      simp only [List.filter_cons, hw, hv]
      simp only [Bool.not_false, if_true, List.length_cons]
      omega
    · rcases hv : v.contains d with _ | _
      · simp only [List.filter_cons, hw, hv]
        simp only [Bool.not_false, Bool.not_true, if_true]
        simp only [show ((false = true) = False) by simp, if_false, List.length_cons]
        omega
      · simp only [List.filter_cons, hw, hv]
        simp only [Bool.not_true]
        simp only [show ((false = true) = False) by simp, if_false]
        exact ih

theorem unvisited_cons_lt (fs : Filesys) (visited : List String) (rp : String)
    (hmem : rp ∈ fs.dirs) (hnv : visited.contains rp = false) :
    unvisitedCount fs (rp :: visited) < unvisitedCount fs visited := by
  rw [unvisitedCount, unvisitedCount]
  have hgen : ∀ dirs : List String, rp ∈ dirs →
      (dirs.filter (fun d => !((rp :: visited).contains d))).length
        < (dirs.filter (fun d => !(visited.contains d))).length := by
    intro dirs hm
    induction dirs with
    | nil => simp at hm
    | cons d rest ih =>
      rcases List.mem_cons.mp hm with rfl | hm2
      · have hc : (rp :: visited).contains rp = true := by
          rw [List.contains_cons]
          simp
        have hmono := filter_not_contains_mono rest visited (rp :: visited)
          (fun x hx => contains_cons_of_contains rp x visited hx)
        simp only [List.filter_cons, hc, hnv]
        simp only [Bool.not_true, Bool.not_false, if_true]
        simp only [show ((false = true) = False) by simp, if_false, List.length_cons]
        omega
      · rcases hrv : (rp :: visited).contains d with _ | _
        · have hv : visited.contains d = false := by
            rcases hv2 : visited.contains d with _ | _
            · rfl
            · rw [contains_cons_of_contains rp d visited hv2] at hrv
              cases hrv
          have hih := ih hm2
          simp only [List.filter_cons, hrv, hv]
          simp only [Bool.not_false, if_true, List.length_cons]
          omega
        · rcases hv : visited.contains d with _ | _
          · have hih := ih hm2
            simp only [List.filter_cons, hrv, hv]
            simp only [Bool.not_true, Bool.not_false, if_true]
            simp only [show ((false = true) = False) by simp, if_false,
              List.length_cons]
            omega
          · have hih := ih hm2
            simp only [List.filter_cons, hrv, hv]
            simp only [Bool.not_true]
            simp only [show ((false = true) = False) by simp, if_false]
            omega
  exact hgen fs.dirs hmem

theorem walkChildren_extends_of (fuel : Nat)
    (hcheck : ∀ fs pathId path info relPath visited files visited2,
      checkPathReadable fs pathId fuel path info relPath visited
        = WalkRes.success files visited2 → ∃ pre, visited2 = pre ++ visited) :
    ∀ fs pathId path relPath names visited files visited2,
      walkChildren fs pathId fuel path relPath visited names
        = WalkRes.success files visited2 → ∃ pre, visited2 = pre ++ visited := by
  intro fs pathId path relPath names
  induction names with
  | nil =>
    intro visited files visited2 h
    rw [walkChildren] at h
    cases h
    exact ⟨[], rfl⟩
  | cons name rest ih =>
    intro visited files visited2 h
    rw [walkChildren] at h
    rcases hstat : fs.stat (pathJoin path name) with _ | info
    · rw [hstat] at h
      cases h
    rw [hstat] at h
    dsimp only at h
    rcases hrec : checkPathReadable fs pathId fuel (pathJoin path name) info
        (relPath ++ [name]) visited with _ | e | ⟨files1, visited1⟩
    · rw [hrec] at h
      cases h
    · rw [hrec] at h
      cases h
    rw [hrec] at h
    dsimp only at h
    rcases hrest : walkChildren fs pathId fuel path relPath visited1 rest
        with _ | e | ⟨files3, visited3⟩
    · rw [hrest] at h
      cases h
    · rw [hrest] at h
      cases h
    rw [hrest] at h
    cases h
    obtain ⟨p1, hp1⟩ := hcheck _ _ _ _ _ _ _ _ hrec
    obtain ⟨p2, hp2⟩ := ih _ _ _ hrest
    refine ⟨p2 ++ p1, ?_⟩
    rw [hp2, hp1, List.append_assoc]

theorem checkPathReadable_extends : ∀ fuel : Nat,
    ∀ fs pathId path info relPath visited files visited2,
      checkPathReadable fs pathId fuel path info relPath visited
        = WalkRes.success files visited2 → ∃ pre, visited2 = pre ++ visited := by
  intro fuel
  induction fuel with
  | zero =>
    intro fs pathId path info relPath visited files visited2 h
    rw [checkPathReadable] at h
    by_cases hdir : info.isDir = false
    · rw [if_pos hdir] at h
      by_cases hreg : info.isRegular = false
      · rw [if_pos hreg] at h
        cases h
      rw [if_neg hreg] at h
      by_cases hread : fs.readable path = false
      · rw [if_pos hread] at h
        cases h
      rw [if_neg hread] at h
      cases h
      exact ⟨[], rfl⟩
    · rw [if_neg hdir] at h
      rcases hev : fs.evalSymlinks path with _ | realPath
      · rw [hev] at h
        cases h
      rw [hev] at h
      dsimp only at h
      by_cases hcont : visited.contains realPath = true
      · rw [if_pos hcont] at h
        cases h
      rw [if_neg hcont] at h
      rcases hent : fs.entries path with _ | names
      · rw [hent] at h
        cases h
      rw [hent] at h
      dsimp only at h
      cases h
  | succ n ihn =>
    intro fs pathId path info relPath visited files visited2 h
    rw [checkPathReadable] at h
    by_cases hdir : info.isDir = false
    · rw [if_pos hdir] at h
      by_cases hreg : info.isRegular = false
      · rw [if_pos hreg] at h
        cases h
      rw [if_neg hreg] at h
      by_cases hread : fs.readable path = false
      · rw [if_pos hread] at h
        cases h
      rw [if_neg hread] at h
      cases h
      exact ⟨[], rfl⟩
    · rw [if_neg hdir] at h
      rcases hev : fs.evalSymlinks path with _ | realPath
      · rw [hev] at h
        cases h
      rw [hev] at h
      dsimp only at h
      by_cases hcont : visited.contains realPath = true
      · rw [if_pos hcont] at h
        cases h
      rw [if_neg hcont] at h
      rcases hent : fs.entries path with _ | names
      · rw [hent] at h
        cases h
      rw [hent] at h
      dsimp only at h
      rcases hrec : walkChildren fs pathId n path relPath (realPath :: visited) names
          with _ | e | ⟨files1, visited1⟩
      · rw [hrec] at h
        cases h
      · rw [hrec] at h
        cases h
      rw [hrec] at h
      cases h
      obtain ⟨p1, hp1⟩ := walkChildren_extends_of n ihn _ _ _ _ _ _ _ _ hrec
      refine ⟨p1 ++ [realPath], ?_⟩
      rw [hp1, List.append_assoc]
      rfl

theorem walkChildren_extends (fuel : Nat) :
    ∀ fs pathId path relPath names visited files visited2,
      walkChildren fs pathId fuel path relPath visited names
        = WalkRes.success files visited2 → ∃ pre, visited2 = pre ++ visited :=
  walkChildren_extends_of fuel (checkPathReadable_extends fuel)

theorem unvisitedCount_append_le (fs : Filesys) (pre visited : List String) :
    unvisitedCount fs (pre ++ visited) ≤ unvisitedCount fs visited := by
  rw [unvisitedCount, unvisitedCount]
  exact filter_not_contains_mono fs.dirs visited (pre ++ visited)
    (fun x hx => contains_append_of_contains pre visited x hx)

theorem walkChildren_no_oof_of (fuel : Nat)
    (hcheck : ∀ fs pathId path info relPath visited, Filesys.WF fs →
      fs.stat path = some info → unvisitedCount fs visited < fuel →
      checkPathReadable fs pathId fuel path info relPath visited ≠ WalkRes.outOfFuel) :
    ∀ fs pathId path relPath names visited, Filesys.WF fs →
      unvisitedCount fs visited < fuel →
      walkChildren fs pathId fuel path relPath visited names ≠ WalkRes.outOfFuel := by
  intro fs pathId path relPath names
  induction names with
  | nil =>
    intro visited hwf hcount hoof
    rw [walkChildren] at hoof
    cases hoof
  | cons name rest ih =>
    intro visited hwf hcount hoof
    rw [walkChildren] at hoof
    rcases hstat : fs.stat (pathJoin path name) with _ | info
    · rw [hstat] at hoof
      cases hoof
    rw [hstat] at hoof
    dsimp only at hoof
    rcases hrec : checkPathReadable fs pathId fuel (pathJoin path name) info
        (relPath ++ [name]) visited with _ | e | ⟨files1, visited1⟩
    · exact hcheck fs pathId (pathJoin path name) info (relPath ++ [name]) visited
        hwf hstat hcount hrec
    · rw [hrec] at hoof
      cases hoof
    rw [hrec] at hoof
    dsimp only at hoof
    obtain ⟨p1, hp1⟩ := checkPathReadable_extends fuel fs pathId (pathJoin path name)
      info (relPath ++ [name]) visited files1 visited1 hrec
    have hcount1 : unvisitedCount fs visited1 < fuel := by
      have hle := unvisitedCount_append_le fs p1 visited
      rw [← hp1] at hle
      omega
    rcases hrest : walkChildren fs pathId fuel path relPath visited1 rest
        with _ | e | ⟨files3, visited3⟩
    · exact ih visited1 hwf hcount1 hrest
    · rw [hrest] at hoof
      cases hoof
    · rw [hrest] at hoof
      cases hoof

theorem checkPathReadable_no_oof : ∀ fuel : Nat,
    ∀ fs pathId path info relPath visited, Filesys.WF fs →
      fs.stat path = some info → unvisitedCount fs visited < fuel →
      checkPathReadable fs pathId fuel path info relPath visited
        ≠ WalkRes.outOfFuel := by
  intro fuel
  induction fuel with
  | zero =>
    intro fs pathId path info relPath visited hwf hstat hcount
    omega
  | succ n ihn =>
    intro fs pathId path info relPath visited hwf hstat hcount hoof
    rw [checkPathReadable] at hoof
    by_cases hdir : info.isDir = false
    · rw [if_pos hdir] at hoof
      by_cases hreg : info.isRegular = false
      · rw [if_pos hreg] at hoof
        cases hoof
      rw [if_neg hreg] at hoof
      by_cases hread : fs.readable path = false
      · rw [if_pos hread] at hoof
        cases hoof
      rw [if_neg hread] at hoof
      cases hoof
    · rw [if_neg hdir] at hoof
      rcases hev : fs.evalSymlinks path with _ | realPath
      · rw [hev] at hoof
        cases hoof
      rw [hev] at hoof
      dsimp only at hoof
      by_cases hcont : visited.contains realPath = true
      · rw [if_pos hcont] at hoof
        cases hoof
      rw [if_neg hcont] at hoof
      rcases hent : fs.entries path with _ | names
      · rw [hent] at hoof
        cases hoof
      rw [hent] at hoof
      dsimp only at hoof
      have hdirmem : realPath ∈ fs.dirs := by
        refine hwf path info realPath hstat ?_ hev
        revert hdir
        cases info.isDir <;> simp
      have hnv : visited.contains realPath = false := by
        revert hcont
        cases visited.contains realPath <;> simp
      have hlt := unvisited_cons_lt fs visited realPath hdirmem hnv
      have hcount2 : unvisitedCount fs (realPath :: visited) < n := by omega
      have hchild := walkChildren_no_oof_of n ihn fs pathId path relPath names
        (realPath :: visited) hwf hcount2
      rcases hrec : walkChildren fs pathId n path relPath (realPath :: visited) names
          with _ | e | ⟨files1, visited1⟩
      · exact hchild hrec
      · rw [hrec] at hoof
        cases hoof
      · rw [hrec] at hoof
        cases hoof

theorem checkPathsLoop_ne_oof (fs : Filesys) (directory : Bool) (hwf : Filesys.WF fs) :
    ∀ (ps : List String) (i : Nat),
      checkPathsLoop fs directory i ps ≠ PathsRes.outOfFuel := by
  intro ps
  induction ps with
  | nil =>
    intro i hoof
    rw [checkPathsLoop] at hoof
    cases hoof
  | cons p rest ih =>
    intro i hoof
    rw [checkPathsLoop] at hoof
    rcases habs : fs.abs p with _ | path
    · rw [habs] at hoof
      cases hoof
    rw [habs] at hoof
    dsimp only at hoof
    rcases hstat : fs.stat path with _ | info
    · rw [hstat] at hoof
      cases hoof
    rw [hstat] at hoof
    dsimp only at hoof
    by_cases hd : directory = false ∧ info.isDir = true
    · rw [if_pos hd] at hoof
      cases hoof
    rw [if_neg hd] at hoof
    have hcount : unvisitedCount fs [] < fs.dirs.length + 1 := by
      rw [unvisitedCount]
      have hle := List.length_filter_le
        (fun d => !(([] : List String).contains d)) fs.dirs
      omega
    have hcr := checkPathReadable_no_oof (fs.dirs.length + 1) fs i path info
      [info.name] [] hwf hstat hcount
    rcases hrec : checkPathReadable fs i (fs.dirs.length + 1) path info [info.name] []
        with _ | e | ⟨files1, visited1⟩
    · exact hcr hrec
    · rw [hrec] at hoof
      cases hoof
    rw [hrec] at hoof
    dsimp only at hoof
    rcases hrest : checkPathsLoop fs directory (i + 1) rest with _ | e | files2
    · exact ih (i + 1) hrest
    · rw [hrest] at hoof
      cases hoof
    · rw [hrest] at hoof
      cases hoof

theorem loopFs_wf : Filesys.WF loopFs := by
  intro p i rp hstat hdir hev
  by_cases h1 : p = "/a"
  · subst h1
    have : some "/a" = some rp := by
      rw [show loopFs.evalSymlinks "/a" = some "/a" from rfl] at hev
      exact hev
    cases this
    simp [loopFs]
  · by_cases h2 : p = "/a/b"
    · subst h2
      have : some "/a" = some rp := by
        rw [show loopFs.evalSymlinks "/a/b" = some "/a" from rfl] at hev
        exact hev
      cases this
      simp [loopFs]
    · exfalso
      have hn : loopFs.stat p = none := by
        simp [loopFs, h1, h2]
      rw [hn] at hstat
      cases hstat

/-- C3: the path walk always terminates — with the fuel the model uses
(`|dirs| + 1`) the walk never exhausts it, because each directory visit
adds a fresh real path to the visited set — and on the concrete
symlink loop /a/b → /a it stops with the "Duplicate link" error. -/
theorem checkPathsReadable_terminates (fs : Filesys) (paths : List String)
    (directory : Bool) (hwf : Filesys.WF fs) :
    checkPathsReadable fs paths directory ≠ PathsRes.outOfFuel
    ∧ checkPathsReadable loopFs ["/a"] true = .failure "Duplicate link: /a/b" := by
  constructor
  · rw [checkPathsReadable]
    exact checkPathsLoop_ne_oof fs directory hwf paths 0
  · simp [checkPathsReadable, checkPathsLoop, checkPathReadable, walkChildren,
      loopFs, pathJoin]

/-- C3 witness: the loop filesystem is well-formed and the walk over it
terminates without exhausting fuel. -/
theorem checkPathsReadable_terminates_witness :
    Filesys.WF loopFs
    ∧ checkPathsReadable loopFs ["/a"] true ≠ PathsRes.outOfFuel
    ∧ checkPathsReadable loopFs ["/a"] true = .failure "Duplicate link: /a/b" := by
  refine ⟨loopFs_wf, ?_, ?_⟩
  · exact (checkPathsReadable_terminates loopFs ["/a"] true loopFs_wf).1
  · exact (checkPathsReadable_terminates loopFs ["/a"] true loopFs_wf).2
